import Mathlib

/-!
Verification of the SCORM Package Generator (`scorm_generator.py`).

The development shallowly embeds the program's pure computations:

* `sanitize_filename` — the title sanitizer (source lines 45-50);
* the submit-button validation block (source lines 915-930) and the
  generation pipeline it gates (lines 930-944);
* the launcher-page color darkening (lines 207-211);
* the minimum-time gate injected into the launcher page (lines 213-223
  and the generated `markComplete`, lines 711-720);
* the SCORM time formatter/parser embedded in the launcher page
  (generated JavaScript, lines 603-622) and the total-time restore
  logic (lines 674-698);
* the in-memory ZIP assembly of `create_scorm_package` (lines 792-819).

Machine strings are modelled as Lean `String`s over their character
lists; Python/JavaScript numbers appearing here are non-negative whole
numbers and are modelled as `Nat`.
-/

/-- Character class of Python's regex `\w` (word character).  Python's
`\w` is Unicode-aware; every character relevant to this program (and to
the claims) is ASCII, so the embedding uses the ASCII alphanumerics plus
underscore.  Characters such as `'®'` are not word characters in either
reading. -/
def isWordChar (c : Char) : Bool :=
  c.isAlphanum || c = '_'

/-- Character class of Python's regex `\s` and of `str.strip`'s default
whitespace set, restricted to the ASCII range:
space, tab, newline, carriage return, vertical tab, form feed. -/
def isSpaceChar (c : Char) : Bool :=
  c = ' ' || c = '\t' || c = '\n' || c = '\r' || c = '\x0b' || c = '\x0c'

/-- One left-to-right pass implementing `re.sub(r'[\s]+', '_', s)`:
a whitespace character opening a maximal run emits a single `'_'`;
whitespace continuing a run emits nothing; other characters pass
through.  `prevSpace` records whether the previous character was
whitespace. -/
def collapseWsAux (prevSpace : Bool) : List Char → List Char
  | [] => []
  | c :: cs =>
    if isSpaceChar c then
      if prevSpace then collapseWsAux true cs
      else '_' :: collapseWsAux true cs
    else c :: collapseWsAux false cs

/-- Replace every maximal run of whitespace with a single underscore,
as `re.sub(r'[\s]+', '_', s)` does. -/
def collapseWs (l : List Char) : List Char :=
  collapseWsAux false l

/-- Embedding of `sanitize_filename` (source lines 45-50):
`safe = re.sub(r'[^\w\s-]', '', name)`, then
`safe = re.sub(r'[\s]+', '_', safe)`, then `return safe[:50]`. -/
def sanitize_filename (name : String) : String :=
  let safe := name.toList.filter fun c => isWordChar c || isSpaceChar c || c = '-'
  let safe := collapseWs safe
  String.mk (safe.take 50)

/-- Embedding of Python's `str.strip()` with no argument: drop leading
and trailing whitespace. -/
def pyStrip (s : String) : String :=
  String.mk (((s.toList.dropWhile isSpaceChar).reverse.dropWhile isSpaceChar).reverse)

/-- List-level string-prefix test, used to embed Python's
`str.startswith`. -/
def startsWithList : List Char → List Char → Bool
  | [], _ => true
  | _ :: _, [] => false
  | p :: ps, c :: cs => p = c && startsWithList ps cs

/-- Embedding of `course_url.startswith(('http://', 'https://'))`
(source line 924).  Note the source applies it to the raw, untrimmed
URL string. -/
def hasHttpScheme (url : String) : Bool :=
  startsWithList "http://".toList url.toList || startsWithList "https://".toList url.toList

/-- Embedding of the validation block run on submit (source lines
917-925).  Errors are appended in source order: the title check first,
then the URL emptiness check, and only if the URL is non-empty after
trimming (`elif`), the scheme check — on the untrimmed URL. -/
def validationErrors (course_title course_url : String) : List String :=
  (if pyStrip course_title = "" then ["Course title is required"] else []) ++
  (if pyStrip course_url = "" then ["Course URL is required"]
   else if !hasHttpScheme course_url then
     ["Course URL must start with http:// or https://"]
   else [])

/-- Value of a single hexadecimal digit as accepted by Python's
`int(s, 16)` (digits `0`-`9`, `a`-`f`, `A`-`F`); `none` for any other
character. -/
def hexDigitVal (c : Char) : Option Nat :=
  if '0' ≤ c ∧ c ≤ '9' then some (c.toNat - '0'.toNat)
  else if 'a' ≤ c ∧ c ≤ 'f' then some (c.toNat - 'a'.toNat + 10)
  else if 'A' ≤ c ∧ c ≤ 'F' then some (c.toNat - 'A'.toNat + 10)
  else none

/-- Embedding of Python's `int(s, 16)` on a plain string of hex digits:
`none` (Python: `ValueError`) for the empty string or any non-hex
character.  The other forms `int(s, 16)` tolerates (surrounding
whitespace, a sign, a `0x` marker, underscores) never arise from the
two-character slices of a color value and are not modelled. -/
def hexVal (cs : List Char) : Option Nat :=
  match cs with
  | [] => none
  | _ :: _ => cs.foldl (fun acc c => do
      let a ← acc
      let d ← hexDigitVal c
      pure (a * 16 + d)) (some 0)

/-- Embedding of `primary_color.lstrip('#')` (source line 208): drop
every leading `'#'`. -/
def lstripHash (s : String) : String :=
  String.mk (s.toList.dropWhile (· = '#'))

/-- Embedding of source line 209,
`r, g, b = tuple(int(hex_color[i:i+2], 16) for i in (0, 2, 4))`:
the three two-character slices of the de-hashed color, each parsed as
hexadecimal.  `none` models the `ValueError` Python raises when a slice
is empty or not hexadecimal. -/
def colorChannels (primary_color : String) : Option (Nat × Nat × Nat) :=
  let hex := (lstripHash primary_color).toList
  do
    let r ← hexVal ((hex.drop 0).take 2)
    let g ← hexVal ((hex.drop 2).take 2)
    let b ← hexVal ((hex.drop 4).take 2)
    pure (r, g, b)

/-- Embedding of `max(0, n - 40)` on a channel value, computed in `Int`
as Python does and returned as `Nat` (the result is never negative). -/
def clampSub40 (n : Nat) : Nat :=
  (max 0 ((n : Int) - 40)).toNat

/-- Lowercase hexadecimal digit character for a value below 16. -/
def hexChar (n : Nat) : Char :=
  if n < 10 then Char.ofNat ('0'.toNat + n)
  else Char.ofNat ('a'.toNat + (n - 10))

/-- Embedding of the format specifier `{n:02x}` for `n < 256` (every
darkened channel is below 256): two lowercase hex digits,
zero-padded. -/
def toHex2 (n : Nat) : String :=
  String.mk [hexChar (n / 16 % 16), hexChar (n % 16)]

/-- Embedding of source line 211,
`darker = f"#{max(0,r-40):02x}{max(0,g-40):02x}{max(0,b-40):02x}"`:
the launcher page's hover shade, derived from the primary color.
`none` models the `ValueError` path of an unparseable color. -/
def darkerShade (primary_color : String) : Option String :=
  (colorChannels primary_color).map fun (r, g, b) =>
    "#" ++ toHex2 (clampSub40 r) ++ toHex2 (clampSub40 g) ++ toHex2 (clampSub40 b)

/-- Decimal digit character for a value below 10 (`'*'` as an
unreachable fallback). -/
def digitChar : Nat → Char
  | 0 => '0' | 1 => '1' | 2 => '2' | 3 => '3' | 4 => '4'
  | 5 => '5' | 6 => '6' | 7 => '7' | 8 => '8' | 9 => '9'
  | _ => '*'

/-- Fuel-driven core of decimal rendering: prepend the decimal digits
of `n` to `acc`.  The fuel only bounds the recursion; any fuel above
`n` yields the same result. -/
def natDecCore : Nat → Nat → List Char → List Char
  | 0, _, acc => acc
  | fuel + 1, n, acc =>
    if n < 10 then digitChar n :: acc
    else natDecCore fuel (n / 10) (digitChar (n % 10) :: acc)

/-- Decimal digit string of `n`, as JavaScript's `String(n)` renders a
non-negative whole number. -/
def natDecimal (n : Nat) : List Char :=
  natDecCore (n + 1) n []

/-- Embedding of JavaScript's `String.prototype.padStart(n, c)`:
prepend copies of `c` up to length `n`; longer strings are left
unchanged. -/
def padStartList (cs : List Char) (n : Nat) (c : Char) : List Char :=
  List.replicate (n - cs.length) c ++ cs

/-- Embedding of the generated `formatScormTime` (source lines
603-610): hours `seconds / 3600` padded to 4 digits, minutes
`seconds % 3600 / 60` and seconds `seconds % 60` padded to 2 digits,
then a fixed `.00` fraction. -/
def formatScormTime (seconds : Nat) : String :=
  String.mk
    (padStartList (natDecimal (seconds / 3600)) 4 '0' ++ [':'] ++
     padStartList (natDecimal (seconds % 3600 / 60)) 2 '0' ++ [':'] ++
     padStartList (natDecimal (seconds % 60)) 2 '0' ++ ['.', '0', '0'])

/-- Embedding of JavaScript's `String.prototype.split(sep)` for a
one-character separator. -/
def splitOnChar (sep : Char) : List Char → List (List Char)
  | [] => [[]]
  | c :: cs =>
    if c = sep then [] :: splitOnChar sep cs
    else
      match splitOnChar sep cs with
      | [] => [[c]]
      | h :: t => (c :: h) :: t

/-- Decimal value of a digit string, accumulating onto `v`. -/
def decValFrom (v : Nat) (cs : List Char) : Nat :=
  cs.foldl (fun a c => a * 10 + (c.toNat - '0'.toNat)) v

/-- Embedding of `parseInt(s, 10) || 0` on a non-negative numeric
segment: the value of the maximal leading run of decimal digits, `0`
when there is none (`parseInt` yields `NaN` there, which `|| 0` maps to
`0`).  The signs, whitespace and exponents JavaScript's number parsing
also accepts never occur in SCORM time strings and are not
modelled. -/
def parseIntOr0 (cs : List Char) : Nat :=
  decValFrom 0 (cs.takeWhile Char.isDigit)

/-- Embedding of `Math.floor(parseFloat(s) || 0)` on a non-negative
decimal segment such as `"01.50"`: the integer part, i.e. the value of
the digits before any `'.'` — the same maximal leading digit run as
`parseIntOr0`. -/
def parseFloatFloorOr0 (cs : List Char) : Nat :=
  decValFrom 0 (cs.takeWhile Char.isDigit)

/-- Embedding of the generated `parseScormTime` (source lines 612-622):
empty input gives 0; otherwise split on `':'`; with at least three
segments, combine hours, minutes and truncated seconds; otherwise 0. -/
def parseScormTime (timeStr : String) : Nat :=
  if timeStr = "" then 0
  else
    match splitOnChar ':' timeStr.toList with
    | p0 :: p1 :: p2 :: _ =>
      parseIntOr0 p0 * 3600 + parseIntOr0 p1 * 60 + parseFloatFloorOr0 p2
    | _ => 0

/-- Embedding of the generated `loadTimeFromScorm` (source lines
674-698), as a function of the two values read from the LMS.
`suspendTotal = some v` models a `cmi.suspend_data` payload that is
non-empty, parses as JSON and carries a numeric `totalTime` field `v`;
`none` models an empty/absent/unparseable payload or a missing field.
`totalTimeStr` is the raw `cmi.core.total_time` string.  The source's
`if (data.totalTime)` truthiness test is the `v ≠ 0` guard; its
`if (totalTimeStr && totalTimeStr !== '')` test is the non-emptiness
guard. -/
def restoredTotalSeconds (suspendTotal : Option Nat) (totalTimeStr : String) : Nat :=
  let totalSeconds := 0
  let totalSeconds :=
    match suspendTotal with
    | some v => if v ≠ 0 then v else totalSeconds
    | none => totalSeconds
  if totalTimeStr ≠ "" then
    let prevTotal := parseScormTime totalTimeStr
    if prevTotal > totalSeconds then prevTotal else totalSeconds
  else totalSeconds

/-- Embedding of the `min_time_js` fragment (source lines 213-217):
`"var MIN_TIME_REQUIRED = {min_time_minutes * 60};"` when
`require_min_time` is set, the empty string otherwise — in which case
no `MIN_TIME_REQUIRED` constant is compiled into the page. -/
def min_time_js (require_min_time : Bool) (min_time_minutes : Nat) : String :=
  if require_min_time then
    "var MIN_TIME_REQUIRED = " ++ toString (min_time_minutes * 60) ++ ";"
  else ""

/-- Embedding of the `min_time_check` fragment (source lines 218-223)
injected at the top of the generated `markComplete`.  The literal
JavaScript text is abbreviated (its full alert wording is inert); what
matters to the claims is that the fragment is empty exactly when
`require_min_time` is false, and its runtime behaviour, which
`markComplete` below models. -/
def min_time_check (require_min_time : Bool) (min_time_minutes : Nat) : String :=
  if require_min_time then
    "if (totalSeconds < MIN_TIME_REQUIRED) \x7b alert: need at least " ++
      toString min_time_minutes ++
      " minutes, remaining = MIN_TIME_REQUIRED - totalSeconds; return; \x7d"
  else ""

/-- Outcome of the generated `markComplete` handler. -/
inductive MarkCompleteResult where
  | blocked (remainingSeconds : Nat)
  | completed
  | cancelled
  deriving DecidableEq, Repr

/-- Runtime behaviour of the generated `markComplete` (source lines
711-720 together with the injected `min_time_check`, lines 218-223):
when the gate is compiled in (`require_min_time` true) and
`totalSeconds < MIN_TIME_REQUIRED = min_time_minutes * 60`, the action
is blocked, reporting `MIN_TIME_REQUIRED - totalSeconds` remaining
seconds; otherwise the learner is asked to confirm (`confirmComplete`),
and on confirmation the course is completed. -/
def markComplete (require_min_time : Bool) (min_time_minutes totalSeconds : Nat)
    (confirmComplete : Bool) : MarkCompleteResult :=
  if require_min_time ∧ totalSeconds < min_time_minutes * 60 then
    .blocked (min_time_minutes * 60 - totalSeconds)
  else if confirmComplete then .completed
  else .cancelled

/-- The data `generate_html` (source lines 202-790) injects into the
launcher page.  The literal HTML/CSS/JavaScript template around these
values is constant; the claims concern only the computed values, so the
page is modelled by them: the interpolated course fields, the derived
hover shade, `EXPECTED_DURATION = expected_duration * 60`, and the two
minimum-time fragments. -/
structure GeneratedHtml where
  course_title : String
  course_url : String
  primary_color : String
  darker : String
  expectedDurationSeconds : Nat
  minTimeJsFragment : String
  minTimeCheckFragment : String
  subtitle : String
  additional_info : String
  deriving DecidableEq, Repr

/-- Embedding of `generate_html` (source lines 202-224 compute, the
rest interpolates).  `none` models the `ValueError` Python raises on an
unparseable `primary_color` (source line 209). -/
def generate_html (course_title course_url primary_color : String)
    (expected_duration : Nat) (require_min_time : Bool) (min_time_minutes : Nat)
    (subtitle additional_info : String) : Option GeneratedHtml :=
  (darkerShade primary_color).map fun darker =>
    { course_title := course_title
      course_url := course_url
      primary_color := primary_color
      darker := darker
      expectedDurationSeconds := expected_duration * 60
      minTimeJsFragment := min_time_js require_min_time min_time_minutes
      minTimeCheckFragment := min_time_check require_min_time min_time_minutes
      subtitle := subtitle
      additional_info := additional_info }

/-- The data `generate_manifest` (source lines 52-84) injects into the
fixed SCORM 1.2 manifest skeleton: the `identifier` attribute, the
organization/item titles, and the mastery score.  The surrounding XML
text is constant and carries no claim. -/
structure Manifest where
  course_id : String
  course_title : String
  mastery_score : Nat
  deriving DecidableEq, Repr

/-- Embedding of `generate_manifest` (source lines 52-84). -/
def generate_manifest (course_id course_title : String) (mastery_score : Nat) : Manifest :=
  ⟨course_id, course_title, mastery_score⟩

/-- Content of one archive entry.  `scormApi` stands for the constant
JavaScript payload of `generate_scorm_api` (source lines 86-200), which
depends on no input. -/
inductive PackageFile where
  | manifest (m : Manifest)
  | scormApi
  | html (h : GeneratedHtml)
  deriving DecidableEq, Repr

/-- Compression method of a ZIP entry. -/
inductive CompressionMethod where
  | stored
  | deflated
  deriving DecidableEq, Repr

/-- One entry of the in-memory ZIP archive: its name in the archive,
its content, and its compression method. -/
structure ZipEntry where
  name : String
  content : PackageFile
  method : CompressionMethod
  deriving DecidableEq, Repr

/-- Embedding of `create_scorm_package` (source lines 792-819): derive
the course id with `sanitize_filename`, then write `imsmanifest.xml`,
`scormapi.js` and `index.html` — in that order, each via
`zip_file.writestr` on a `ZipFile` opened with `zipfile.ZIP_DEFLATED` —
into a fresh in-memory archive.  `none` models the exception escaping
from `generate_html` on an unparseable color. -/
def create_scorm_package (course_title course_url primary_color : String)
    (mastery_score expected_duration : Nat) (require_min_time : Bool)
    (min_time_minutes : Nat) (subtitle additional_info : String) :
    Option (List ZipEntry) :=
  let course_id := sanitize_filename course_title
  (generate_html course_title course_url primary_color expected_duration
      require_min_time min_time_minutes subtitle additional_info).map fun html =>
    [⟨"imsmanifest.xml", .manifest (generate_manifest course_id course_title mastery_score), .deflated⟩,
     ⟨"scormapi.js", .scormApi, .deflated⟩,
     ⟨"index.html", .html html, .deflated⟩]

/-- Embedding of the submit handler (source lines 915-944): collect the
validation errors; if any, report them all and generate nothing
(`Except.error`); otherwise run `create_scorm_package` on the trimmed
title, trimmed URL, and trimmed optional texts (`Except.ok`).  The
inner `Option` is the catch-all `try/except` around generation (source
lines 933-970): `none` is the reported generation error, with no
archive offered. -/
def processSubmission (course_title course_url primary_color : String)
    (mastery_score expected_duration : Nat) (require_min_time : Bool)
    (min_time_minutes : Nat) (subtitle additional_info : String) :
    Except (List String) (Option (List ZipEntry)) :=
  let errors := validationErrors course_title course_url
  if errors = [] then
    .ok (create_scorm_package (pyStrip course_title) (pyStrip course_url)
      primary_color mastery_score expected_duration require_min_time
      min_time_minutes (pyStrip subtitle) (pyStrip additional_info))
  else .error errors

/-! ## Sanitizer lemmas -/

lemma mem_collapseWsAux (b : Bool) (l : List Char) (c : Char)
    (h : c ∈ collapseWsAux b l) : c = '_' ∨ (c ∈ l ∧ isSpaceChar c = false) := by
  induction l generalizing b with
  | nil => simp [collapseWsAux] at h
  | cons d t ih =>
    by_cases hd : isSpaceChar d
    · cases b with
      | true =>
        simp only [collapseWsAux, hd, if_true] at h
        rcases ih true h with h1 | ⟨h2, h3⟩
        · exact Or.inl h1
        · exact Or.inr ⟨List.mem_cons_of_mem _ h2, h3⟩
      | false =>
        simp only [collapseWsAux, hd, if_true, if_false] at h
        rcases List.mem_cons.mp h with h1 | h2
        · exact Or.inl h1
        · rcases ih true h2 with h1 | ⟨h2', h3⟩
          · exact Or.inl h1
          · exact Or.inr ⟨List.mem_cons_of_mem _ h2', h3⟩
    · simp only [collapseWsAux, hd, if_false] at h
      rcases List.mem_cons.mp h with h1 | h2
      · subst h1
        exact Or.inr ⟨List.mem_cons_self _ _, Bool.not_eq_true _ ▸ eq_false_of_ne_true hd⟩
      · rcases ih false h2 with h1 | ⟨h2', h3⟩
        · exact Or.inl h1
        · exact Or.inr ⟨List.mem_cons_of_mem _ h2', h3⟩

lemma collapseWsAux_eq_self (b : Bool) (l : List Char)
    (h : ∀ c ∈ l, isSpaceChar c = false) : collapseWsAux b l = l := by
  induction l generalizing b with
  | nil => rfl
  | cons d t ih =>
    have hd : isSpaceChar d = false := h d (List.mem_cons_self _ _)
    simp only [collapseWsAux, hd, if_false, Bool.false_eq_true]
    exact congrArg (d :: ·) (ih false (fun c hc => h c (List.mem_cons_of_mem _ hc)))

lemma sanitize_filename_chars (name : String) (c : Char)
    (h : c ∈ (sanitize_filename name).toList) :
    ((isWordChar c || c = '-') && !isSpaceChar c) = true := by
  have h2 : c ∈ collapseWs (name.toList.filter
      fun c => isWordChar c || isSpaceChar c || c = '-') :=
    List.take_subset 50 _ h
  rcases mem_collapseWsAux false _ c h2 with h3 | ⟨h4, h5⟩
  · subst h3; decide
  · have h6 := (List.mem_filter.mp h4).2
    simp only [Bool.or_eq_true, decide_eq_true_eq] at h6
    rcases h6 with (h6 | h6) | h6
    · simp [h6, h5]
    · rw [h5] at h6; exact (Bool.false_ne_true h6).elim
    · subst h6; decide

lemma sanitize_filename_length (name : String) : (sanitize_filename name).length ≤ 50 := by
  show ((collapseWs _).take 50).length ≤ 50
  simp [List.length_take]

/-- C2: for every input string, `sanitize_filename` returns a string of
word characters and hyphens only — in particular no whitespace — of
length at most 50, and `sanitize_filename "Selling the Message®"` is
`"Selling_the_Message"`. -/
theorem sanitize_filename_charset_and_length :
    (∀ name : String,
      ((sanitize_filename name).toList.all
        fun c => (isWordChar c || c = '-') && !isSpaceChar c) = true ∧
      (sanitize_filename name).length ≤ 50) ∧
    sanitize_filename "Selling the Message®" = "Selling_the_Message" := by
  refine ⟨fun name => ⟨?_, sanitize_filename_length name⟩, by decide⟩
  rw [List.all_eq_true]
  intro c hc
  exact sanitize_filename_chars name c hc

/-- C9: `sanitize_filename` is idempotent. -/
theorem sanitize_filename_idempotent :
    ∀ x : String, sanitize_filename (sanitize_filename x) = sanitize_filename x := by
  intro x
  have hfilter : (sanitize_filename x).toList.filter
      (fun c => isWordChar c || isSpaceChar c || c = '-') = (sanitize_filename x).toList := by
    rw [List.filter_eq_self]
    intro c hc
    have h := sanitize_filename_chars x c hc
    simp only [Bool.and_eq_true, Bool.or_eq_true, decide_eq_true_eq, Bool.not_eq_true'] at h
    simp only [Bool.or_eq_true, decide_eq_true_eq]
    rcases h.1 with h1 | h1
    · exact Or.inl (Or.inl h1)
    · exact Or.inr h1
  have hnospace : ∀ c ∈ (sanitize_filename x).toList, isSpaceChar c = false := by
    intro c hc
    have h := sanitize_filename_chars x c hc
    simp only [Bool.and_eq_true, Bool.not_eq_true'] at h
    exact h.2
  have hcollapse : collapseWs (sanitize_filename x).toList = (sanitize_filename x).toList :=
    collapseWsAux_eq_self false _ hnospace
  have hlen : (sanitize_filename x).toList.length ≤ 50 := sanitize_filename_length x
  have htake : (sanitize_filename x).toList.take 50 = (sanitize_filename x).toList :=
    List.take_of_length_le hlen
  show String.mk (((sanitize_filename x).toList.filter
      (fun c => isWordChar c || isSpaceChar c || c = '-') |> collapseWs).take 50) =
    sanitize_filename x
  rw [hfilter, hcollapse, htake]
  rfl

/-! ## Validation lemmas -/

/-- A URL whose raw text starts with an accepted scheme is non-empty
after trimming (it begins with `'h'`, which is not whitespace). -/
lemma pyStrip_ne_empty_of_hasHttpScheme (url : String)
    (h : hasHttpScheme url = true) : pyStrip url ≠ "" := by
  have hhead : ∃ t, url.toList = 'h' :: t := by
    unfold hasHttpScheme at h
    rcases Bool.or_eq_true _ _ ▸ h with h1 | h1 <;>
    · cases hu : url.toList with
      | nil => rw [hu] at h1; simp [startsWithList] at h1
      | cons c t =>
        rw [hu] at h1
        simp only [startsWithList, Bool.and_eq_true, decide_eq_true_eq] at h1
        exact ⟨t, by rw [h1.1.symm]⟩
  obtain ⟨t, ht⟩ := hhead
  intro habs
  have hdrop : url.toList.dropWhile isSpaceChar = 'h' :: t := by
    rw [ht]; simp [List.dropWhile, isSpaceChar]
  have hnil : (('h' :: t).reverse.dropWhile isSpaceChar).reverse = [] := by
    have h2 : pyStrip url = String.mk ((('h' :: t).reverse.dropWhile isSpaceChar).reverse) := by
      unfold pyStrip; rw [hdrop]
    rw [h2] at habs
    exact congrArg String.data habs
  rw [List.reverse_eq_nil_iff, List.dropWhile_eq_nil_iff] at hnil
  have := hnil 'h' (by simp)
  simp [isSpaceChar] at this

/-- C3: a submission whose title is whitespace-only and whose URL is
non-empty after trimming but lacks an `http://`/`https://` scheme gets
exactly the two errors "Course title is required" and "Course URL must
start with http:// or https://", and generation does not proceed. -/
theorem validation_empty_title_bad_scheme
    (course_title course_url primary_color : String)
    (mastery_score expected_duration : Nat) (require_min_time : Bool)
    (min_time_minutes : Nat) (subtitle additional_info : String)
    (htitle : pyStrip course_title = "")
    (hurl : pyStrip course_url ≠ "")
    (hscheme : hasHttpScheme course_url = false) :
    validationErrors course_title course_url =
      ["Course title is required", "Course URL must start with http:// or https://"] ∧
    processSubmission course_title course_url primary_color mastery_score
      expected_duration require_min_time min_time_minutes subtitle additional_info =
      .error ["Course title is required",
              "Course URL must start with http:// or https://"] := by
  have hv : validationErrors course_title course_url =
      ["Course title is required", "Course URL must start with http:// or https://"] := by
    unfold validationErrors
    rw [if_pos htitle, if_neg hurl, hscheme]
    simp
  exact ⟨hv, by unfold processSubmission; rw [hv]; simp⟩

/-- Witness for C3 at the concrete submission with whitespace-only
title and URL `"ftp://host/x"`. -/
theorem validation_empty_title_bad_scheme_witness :
    pyStrip "   " = "" ∧ pyStrip "ftp://host/x" ≠ "" ∧
    hasHttpScheme "ftp://host/x" = false ∧
    (validationErrors "   " "ftp://host/x" =
      ["Course title is required", "Course URL must start with http:// or https://"] ∧
    processSubmission "   " "ftp://host/x" "#5F2EEA" 80 60 false 0 "" "" =
      .error ["Course title is required",
              "Course URL must start with http:// or https://"]) :=
  ⟨by decide, by decide, by decide,
    validation_empty_title_bad_scheme "   " "ftp://host/x" "#5F2EEA" 80 60 false 0 "" ""
      (by decide) (by decide) (by decide)⟩

/-- C4 counterexample: the submission with title `"Demo"` and URL
`" https://example.com"` satisfies the claim's hypotheses — the title
is non-empty after trimming, the URL is non-empty after trimming and
starts with `https://` after trimming — yet validation reports an
error and generation is blocked, because the source checks the scheme
on the untrimmed URL (source line 924). -/
theorem validation_trimmed_scheme_counterexample :
    pyStrip "Demo" ≠ "" ∧
    pyStrip " https://example.com" ≠ "" ∧
    hasHttpScheme (pyStrip " https://example.com") = true ∧
    validationErrors "Demo" " https://example.com" =
      ["Course URL must start with http:// or https://"] ∧
    processSubmission "Demo" " https://example.com" "#5F2EEA" 80 60 false 0 "" "" =
      .error ["Course URL must start with http:// or https://"] := by
  refine ⟨by decide, by decide, by decide, by decide, ?_⟩
  have : validationErrors "Demo" " https://example.com" =
      ["Course URL must start with http:// or https://"] := by decide
  unfold processSubmission
  rw [this]
  simp

/-- C4 (amended): when the title is non-empty after trimming and the
raw, untrimmed URL starts with `http://` or `https://`, validation
reports no errors and the trimmed inputs are passed to
`create_scorm_package`. -/
theorem validation_success_raw_scheme
    (course_title course_url primary_color : String)
    (mastery_score expected_duration : Nat) (require_min_time : Bool)
    (min_time_minutes : Nat) (subtitle additional_info : String)
    (htitle : pyStrip course_title ≠ "")
    (hscheme : hasHttpScheme course_url = true) :
    validationErrors course_title course_url = [] ∧
    processSubmission course_title course_url primary_color mastery_score
      expected_duration require_min_time min_time_minutes subtitle additional_info =
      .ok (create_scorm_package (pyStrip course_title) (pyStrip course_url)
        primary_color mastery_score expected_duration require_min_time
        min_time_minutes (pyStrip subtitle) (pyStrip additional_info)) := by
  have hurl := pyStrip_ne_empty_of_hasHttpScheme course_url hscheme
  have hv : validationErrors course_title course_url = [] := by
    unfold validationErrors
    rw [if_neg htitle, if_neg hurl, hscheme]
    simp
  exact ⟨hv, by unfold processSubmission; rw [hv]; simp⟩

/-- Witness for the amended C4 at title `"Demo"` and URL
`"https://example.com"`. -/
theorem validation_success_raw_scheme_witness :
    validationErrors "Demo" "https://example.com" = [] ∧
    processSubmission "Demo" "https://example.com" "#5F2EEA" 80 60 false 0 "" "" =
      .ok (create_scorm_package "Demo" "https://example.com" "#5F2EEA" 80 60 false 0 "" "") :=
  validation_success_raw_scheme "Demo" "https://example.com" "#5F2EEA" 80 60 false 0 "" ""
    (by decide) (by decide)

/-- C10: validation reports at most two errors; the title error appears
at most once; and the two URL errors are mutually exclusive. -/
theorem validation_error_bounds :
    ∀ course_title course_url : String,
      (validationErrors course_title course_url).length ≤ 2 ∧
      (validationErrors course_title course_url).count "Course title is required" ≤ 1 ∧
      ¬("Course URL is required" ∈ validationErrors course_title course_url ∧
        "Course URL must start with http:// or https://" ∈
          validationErrors course_title course_url) := by
  intro t u
  unfold validationErrors
  by_cases hA : pyStrip t = "" <;> by_cases hB : pyStrip u = "" <;>
    by_cases hC : hasHttpScheme u <;>
      simp [hA, hB, hC, List.count_cons, List.count_nil]

/-! ## Color darkening -/

/-- The `Int`-computed clamp agrees with the spec's description
"subtract 40, clamped at a minimum of 0". -/
lemma clampSub40_eq (n : Nat) : clampSub40 n = if 40 ≤ n then n - 40 else 0 := by
  unfold clampSub40
  rcases le_or_lt 40 n with h | h
  · rw [if_pos h, max_eq_right (by omega)]
    omega
  · rw [if_neg (by omega), max_eq_left (by omega)]
    rfl

/-- C5 counterexample: for `#5F2EEA` (95, 46, 234) the code derives
`#3706c2` (55, 6, 194), not the claimed `#3f0aca` (55, 6, 202):
95 − 40 = 55 = 0x37, 46 − 40 = 6 = 0x06, 234 − 40 = 194 = 0xc2. -/
theorem darkerShade_5F2EEA_counterexample :
    colorChannels "#5F2EEA" = some (95, 46, 234) ∧
    darkerShade "#5F2EEA" = some "#3706c2" ∧
    darkerShade "#5F2EEA" ≠ some "#3f0aca" := by
  refine ⟨by decide, by decide, by decide⟩

/-- C5 (amended): the hover shade is obtained by parsing the
6-hex-digit primary color into its red/green/blue byte components,
subtracting 40 from each channel clamped at a minimum of 0, and
re-encoding each channel as two hex digits; for `#5F2EEA` (95, 46,
234) this gives `#3706c2` (55, 6, 194), and for `#101010` (16, 16, 16)
it gives `#000000`. -/
theorem darkerShade_spec
    (s : String) (r g b : Nat) (h : colorChannels s = some (r, g, b)) :
    darkerShade s = some ("#" ++
      toHex2 (if 40 ≤ r then r - 40 else 0) ++
      toHex2 (if 40 ≤ g then g - 40 else 0) ++
      toHex2 (if 40 ≤ b then b - 40 else 0)) ∧
    darkerShade "#5F2EEA" = some "#3706c2" ∧
    darkerShade "#101010" = some "#000000" := by
  refine ⟨?_, by decide, by decide⟩
  unfold darkerShade
  rw [h]
  simp only [Option.map_some', clampSub40_eq]

/-- Witness for the amended C5 at `#5F2EEA`. -/
theorem darkerShade_spec_witness :
    darkerShade "#5F2EEA" = some ("#" ++
      toHex2 (if 40 ≤ 95 then 95 - 40 else 0) ++
      toHex2 (if 40 ≤ 46 then 46 - 40 else 0) ++
      toHex2 (if 40 ≤ 234 then 234 - 40 else 0)) ∧
    darkerShade "#5F2EEA" = some "#3706c2" ∧
    darkerShade "#101010" = some "#000000" :=
  darkerShade_spec "#5F2EEA" 95 46 234 (by decide)

/-! ## Total-time restore and minimum-time gate -/

/-- C7: the restored `totalSeconds` is the maximum of the suspend-data
total and the parsed `cmi.core.total_time`, never their sum; with
suspend total 500 and a total-time string parsing to 700 seconds
(`"0000:11:40.00"`), the restored value is 700, not 1200. -/
theorem restoredTotalSeconds_is_max :
    (∀ (v : Nat) (totalTimeStr : String),
      restoredTotalSeconds (some v) totalTimeStr =
        max v (parseScormTime totalTimeStr)) ∧
    restoredTotalSeconds (some 500) "0000:11:40.00" = 700 ∧
    restoredTotalSeconds (some 500) "0000:11:40.00" ≠ 500 + 700 := by
  refine ⟨fun v s => ?_, by decide, by decide⟩
  have expand : restoredTotalSeconds (some v) s =
      if s ≠ "" then
        (if parseScormTime s > (if v ≠ 0 then v else 0) then parseScormTime s
         else (if v ≠ 0 then v else 0))
      else (if v ≠ 0 then v else 0) := rfl
  have hv : (if v ≠ 0 then v else 0) = v := by split <;> omega
  rw [expand, hv, Nat.max_def]
  by_cases hs : s = ""
  · have hp : parseScormTime s = 0 := by rw [hs]; decide
    rw [if_neg (by simp [hs]), hp]
    split <;> omega
  · rw [if_pos hs]
    split <;> split <;> omega

/-- C8: with the gate enabled at 30 minutes (1800 seconds), marking
complete at 1200 total seconds is blocked with 600 seconds remaining;
at 1800 seconds or more the gate does not fire and completion proceeds
subject to learner confirmation; with the gate disabled, neither the
`MIN_TIME_REQUIRED` constant nor the gate check is compiled into the
page. -/
theorem min_time_gate :
    (∀ confirmComplete : Bool,
      markComplete true 30 1200 confirmComplete = .blocked 600) ∧
    (∀ (totalSeconds : Nat) (confirmComplete : Bool), 1800 ≤ totalSeconds →
      markComplete true 30 totalSeconds confirmComplete =
        if confirmComplete then .completed else .cancelled) ∧
    (∀ min_time_minutes : Nat,
      min_time_js false min_time_minutes = "" ∧
      min_time_check false min_time_minutes = "") := by
  refine ⟨fun c => by cases c <;> decide, fun t c ht => ?_, fun m => ⟨rfl, rfl⟩⟩
  unfold markComplete
  rw [if_neg (fun h => absurd h.2 (by omega))]

/-- Witness for C8's gated-completion branch at exactly 1800 seconds
with a confirming learner. -/
theorem min_time_gate_witness :
    markComplete true 30 1800 true = (if true then .completed else .cancelled) :=
  min_time_gate.2.1 1800 true (by omega)

/-! ## Archive structure -/

/-- C1: whenever `create_scorm_package` produces an archive, it has
exactly three entries, named `imsmanifest.xml`, `scormapi.js` and
`index.html` in that order, each deflate-compressed, and every name
is a bare root-level filename (no `'/'`, so no subdirectories). -/
theorem create_scorm_package_entries
    (course_title course_url primary_color : String)
    (mastery_score expected_duration : Nat) (require_min_time : Bool)
    (min_time_minutes : Nat) (subtitle additional_info : String)
    (zip : List ZipEntry)
    (h : create_scorm_package course_title course_url primary_color mastery_score
      expected_duration require_min_time min_time_minutes subtitle additional_info =
      some zip) :
    zip.map ZipEntry.name = ["imsmanifest.xml", "scormapi.js", "index.html"] ∧
    zip.length = 3 ∧
    (zip.all fun e => e.method == CompressionMethod.deflated) = true ∧
    (zip.all fun e => !e.name.toList.contains '/') = true := by
  unfold create_scorm_package at h
  cases hh : generate_html course_title course_url primary_color expected_duration
      require_min_time min_time_minutes subtitle additional_info with
  | none => rw [hh] at h; cases h
  | some html =>
    rw [hh, Option.map_some'] at h
    have hz := (Option.some.injEq _ _ ▸ h : _ = zip)
    subst hz
    refine ⟨rfl, rfl, rfl, rfl⟩

/-- Witness for C1 at a concrete valid submission. -/
theorem create_scorm_package_entries_witness :
    ∃ zip : List ZipEntry,
      create_scorm_package "Course" "https://example.com/c" "#5F2EEA" 80 60 false 0 "" "" =
        some zip ∧
      (zip.map ZipEntry.name = ["imsmanifest.xml", "scormapi.js", "index.html"] ∧
       zip.length = 3 ∧
       (zip.all fun e => e.method == CompressionMethod.deflated) = true ∧
       (zip.all fun e => !e.name.toList.contains '/') = true) :=
  ⟨[⟨"imsmanifest.xml", .manifest ⟨"Course", "Course", 80⟩, .deflated⟩,
    ⟨"scormapi.js", .scormApi, .deflated⟩,
    ⟨"index.html", .html ⟨"Course", "https://example.com/c", "#5F2EEA", "#3706c2",
        3600, "", "", "", ""⟩, .deflated⟩],
   by decide,
   create_scorm_package_entries "Course" "https://example.com/c" "#5F2EEA" 80 60 false 0 "" ""
     _ (by decide)⟩

/-! ## SCORM time round trip -/

lemma digitChar_isDigit {k : Nat} (h : k < 10) : (digitChar k).isDigit = true := by
  interval_cases k <;> decide

lemma digitChar_val {k : Nat} (h : k < 10) : (digitChar k).toNat - '0'.toNat = k := by
  interval_cases k <;> decide

lemma natDecCore_append (n : Nat) : ∀ (fuel : Nat) (acc : List Char), n < fuel →
    natDecCore fuel n acc = natDecimal n ++ acc := by
  induction n using Nat.strong_induction_on with
  | _ n ih =>
    intro fuel acc hfuel
    cases fuel with
    | zero => omega
    | succ f =>
      by_cases h10 : n < 10
      · simp [natDecCore, natDecimal, h10]
      · have hdiv : n / 10 < n := Nat.div_lt_self (by omega) (by omega)
        have hstep : natDecCore (f + 1) n acc =
            natDecCore f (n / 10) (digitChar (n % 10) :: acc) := by
          simp [natDecCore, h10]
        have hself : natDecimal n =
            natDecimal (n / 10) ++ [digitChar (n % 10)] := by
          have h1 : natDecimal n = natDecCore n (n / 10) [digitChar (n % 10)] := by
            simp [natDecimal, natDecCore, h10]
          rw [h1, ih (n / 10) hdiv n [digitChar (n % 10)] hdiv]
        rw [hstep, ih (n / 10) hdiv f (digitChar (n % 10) :: acc) (by omega), hself,
          List.append_assoc]
        rfl

lemma natDecimal_cons_digit {n : Nat} (h : ¬ n < 10) :
    natDecimal n = natDecimal (n / 10) ++ [digitChar (n % 10)] := by
  have hdiv : n / 10 < n := Nat.div_lt_self (by omega) (by omega)
  have h1 : natDecimal n = natDecCore n (n / 10) [digitChar (n % 10)] := by
    simp [natDecimal, natDecCore, h]
  rw [h1, natDecCore_append (n / 10) n [digitChar (n % 10)] hdiv]

lemma natDecimal_all_digits (n : Nat) : ∀ c ∈ natDecimal n, c.isDigit = true := by
  induction n using Nat.strong_induction_on with
  | _ n ih =>
    intro c hc
    by_cases h10 : n < 10
    · have : natDecimal n = [digitChar n] := by simp [natDecimal, natDecCore, h10]
      rw [this] at hc
      rcases List.mem_singleton.mp hc with h
      exact h ▸ digitChar_isDigit h10
    · rw [natDecimal_cons_digit h10] at hc
      rcases List.mem_append.mp hc with h | h
      · exact ih (n / 10) (Nat.div_lt_self (by omega) (by omega)) c h
      · rcases List.mem_singleton.mp h with h
        exact h ▸ digitChar_isDigit (Nat.mod_lt _ (by omega))

lemma decValFrom_append (v : Nat) (xs ys : List Char) :
    decValFrom v (xs ++ ys) = decValFrom (decValFrom v xs) ys := by
  simp [decValFrom, List.foldl_append]

lemma decValFrom_natDecimal (n : Nat) : decValFrom 0 (natDecimal n) = n := by
  induction n using Nat.strong_induction_on with
  | _ n ih =>
    by_cases h10 : n < 10
    · have h1 : natDecimal n = [digitChar n] := by simp [natDecimal, natDecCore, h10]
      rw [h1]
      show 0 * 10 + ((digitChar n).toNat - '0'.toNat) = n
      rw [digitChar_val h10]
      omega
    · rw [natDecimal_cons_digit h10, decValFrom_append,
        ih (n / 10) (Nat.div_lt_self (by omega) (by omega))]
      show (n / 10) * 10 + ((digitChar (n % 10)).toNat - '0'.toNat) = n
      rw [digitChar_val (Nat.mod_lt _ (by omega))]
      omega

lemma decValFrom_zeros (k : Nat) : decValFrom 0 (List.replicate k '0') = 0 := by
  induction k with
  | zero => rfl
  | succ m ih =>
    show decValFrom (0 * 10 + ('0'.toNat - '0'.toNat)) (List.replicate m '0') = 0
    simpa using ih

lemma takeWhile_all {p : Char → Bool} : ∀ l : List Char,
    (∀ c ∈ l, p c = true) → l.takeWhile p = l := by
  intro l h
  induction l with
  | nil => rfl
  | cons c cs ih =>
    have hc := h c (List.mem_cons_self _ _)
    simp [List.takeWhile, hc, ih (fun d hd => h d (List.mem_cons_of_mem _ hd))]

lemma takeWhile_append_all {p : Char → Bool} : ∀ (xs ys : List Char),
    (∀ c ∈ xs, p c = true) → (xs ++ ys).takeWhile p = xs ++ ys.takeWhile p := by
  intro xs ys h
  induction xs with
  | nil => rfl
  | cons c cs ih =>
    have hc := h c (List.mem_cons_self _ _)
    simp [List.takeWhile, hc, ih (fun d hd => h d (List.mem_cons_of_mem _ hd))]

lemma pad_all_digits (n k : Nat) :
    ∀ c ∈ padStartList (natDecimal n) k '0', c.isDigit = true := by
  intro c hc
  rcases List.mem_append.mp hc with h | h
  · rw [List.eq_of_mem_replicate h]; decide
  · exact natDecimal_all_digits n c h

lemma parseIntOr0_pad (n k : Nat) :
    parseIntOr0 (padStartList (natDecimal n) k '0') = n := by
  unfold parseIntOr0
  rw [takeWhile_all _ (pad_all_digits n k)]
  unfold padStartList
  rw [decValFrom_append]
  rw [show decValFrom 0 (List.replicate (k - (natDecimal n).length) '0') = 0 from
    decValFrom_zeros _]
  exact decValFrom_natDecimal n

lemma parseFloatFloorOr0_pad_frac (n k : Nat) :
    parseFloatFloorOr0 (padStartList (natDecimal n) k '0' ++ ['.', '0', '0']) = n := by
  unfold parseFloatFloorOr0
  rw [takeWhile_append_all _ _ (pad_all_digits n k)]
  rw [show (['.', '0', '0'].takeWhile Char.isDigit) = [] from rfl]
  rw [List.append_nil]
  unfold padStartList
  rw [decValFrom_append]
  rw [show decValFrom 0 (List.replicate (k - (natDecimal n).length) '0') = 0 from
    decValFrom_zeros _]
  exact decValFrom_natDecimal n

lemma splitOnChar_not_mem {sep : Char} : ∀ l : List Char, sep ∉ l →
    splitOnChar sep l = [l] := by
  intro l h
  induction l with
  | nil => rfl
  | cons c cs ih =>
    have hc : ¬ c = sep := fun habs => h (habs ▸ List.mem_cons_self _ _)
    have ih2 := ih (fun habs => h (List.mem_cons_of_mem _ habs))
    simp [splitOnChar, hc, ih2]

lemma splitOnChar_append {sep : Char} : ∀ (a rest : List Char), sep ∉ a →
    splitOnChar sep (a ++ sep :: rest) = a :: splitOnChar sep rest := by
  intro a rest h
  induction a with
  | nil => simp [splitOnChar]
  | cons c cs ih =>
    have hc : ¬ c = sep := fun habs => h (habs ▸ List.mem_cons_self _ _)
    have ih2 := ih (fun habs => h (List.mem_cons_of_mem _ habs))
    simp [splitOnChar, hc, ih2]

lemma colon_not_mem_pad (n k : Nat) : ':' ∉ padStartList (natDecimal n) k '0' := by
  intro h
  have := pad_all_digits n k ':' h
  simp [Char.isDigit] at this

/-- C6: the embedded SCORM-time formatter renders a whole-second count
as `HHHH:MM:SS.00` — 3661 seconds as `"0001:01:01.00"` — the embedded
parser truncates fractional seconds — `"0001:01:01.50"` parses to
3661 — and parsing the formatted value of any non-negative whole-second
count returns that count. -/
theorem scorm_time_roundtrip :
    (∀ s : Nat, parseScormTime (formatScormTime s) = s) ∧
    formatScormTime 3661 = "0001:01:01.00" ∧
    parseScormTime "0001:01:01.50" = 3661 := by
  refine ⟨fun s => ?_, by decide, by decide⟩
  have hne : formatScormTime s ≠ "" := by
    intro habs
    have h2 := congrArg String.data habs
    simp [formatScormTime] at h2
  have hlist : (formatScormTime s).toList =
      padStartList (natDecimal (s / 3600)) 4 '0' ++ ':' ::
        (padStartList (natDecimal (s % 3600 / 60)) 2 '0' ++ ':' ::
          (padStartList (natDecimal (s % 60)) 2 '0' ++ ['.', '0', '0'])) := by
    simp [formatScormTime]
  have hsplit : splitOnChar ':' (formatScormTime s).toList =
      [padStartList (natDecimal (s / 3600)) 4 '0',
       padStartList (natDecimal (s % 3600 / 60)) 2 '0',
       padStartList (natDecimal (s % 60)) 2 '0' ++ ['.', '0', '0']] := by
    rw [hlist, splitOnChar_append _ _ (colon_not_mem_pad _ 4),
      splitOnChar_append _ _ (colon_not_mem_pad _ 2),
      splitOnChar_not_mem _ ?_]
    intro h
    rcases List.mem_append.mp h with h | h
    · exact colon_not_mem_pad _ 2 h
    · simp at h
  unfold parseScormTime
  rw [if_neg hne, hsplit]
  show parseIntOr0 (padStartList (natDecimal (s / 3600)) 4 '0') * 3600 +
      parseIntOr0 (padStartList (natDecimal (s % 3600 / 60)) 2 '0') * 60 +
      parseFloatFloorOr0 (padStartList (natDecimal (s % 60)) 2 '0' ++ ['.', '0', '0']) = s
  rw [parseIntOr0_pad, parseIntOr0_pad, parseFloatFloorOr0_pad_frac]
  omega
